import Mathlib

/-!
# OKCoin / OKEx adapter (`okcoin/OKCoin_CN.go`): embedding and properties

The Go code is embedded as pure functions.

* A Go call ends in a value, a returned `error`, or a run-time panic
  (failed type assertion, index out of range): `Res`.
* A decoded JSON value (`interface{}`) is a `JVal`; a JSON number is a finite
  `float64`, kept exactly as `mant * 2 ^ exp` (`F64`).  The program never does
  arithmetic on these numbers, it only stores them and converts some to integers.
* `url.Values` is an association list read through `Values.lookup`.
* Everything the file imports from elsewhere (the transport, the digest helper,
  the coercion helpers, `strconv`, `fmt`, `strings`, the clock and the calendar,
  the enum constants of the parent package) is a field of `Collab`, so each
  theorem holds for every behaviour of those collaborators.
* Go `int` is taken to be 64 bits wide.
-/

namespace OKCoin

/-! ## Results of Go calls -/

/-- Outcome of a Go call: a value, a returned `error`, or a run-time panic. -/
inductive Res (α : Type) where
  | ok (a : α)
  | err (msg : String)
  | panic (msg : String)
  deriving DecidableEq, Repr

/-- Sequencing of Go calls: an error or a panic ends the computation. -/
def Res.bind {α β : Type} (x : Res α) (f : α → Res β) : Res β :=
  match x with
  | .ok a => f a
  | .err e => .err e
  | .panic e => .panic e

instance : Monad Res where
  pure := Res.ok
  bind := Res.bind

/-! ## Numbers -/

/-- A finite `float64`, held exactly as `mant * 2 ^ exp`. -/
structure F64 where
  mant : Int
  exp : Int
  deriving DecidableEq, Repr

/-- The zero value of `float64`. -/
def F64.zero : F64 := ⟨0, 0⟩

/-- Truncation toward zero, the integer part of the number. -/
def F64.trunc (x : F64) : Int :=
  if 0 ≤ x.exp then x.mant * 2 ^ x.exp.toNat else Int.tdiv x.mant (2 ^ (-x.exp).toNat)

/-- Whether an integer is an `int64`. -/
def inInt64 (t : Int) : Prop := -(2 ^ 63) ≤ t ∧ t < 2 ^ 63

instance (t : Int) : Decidable (inInt64 t) := by
  unfold inInt64; exact inferInstance

/-! ## Decoded JSON -/

/-- A decoded JSON value, the content of a Go `interface{}` after `encoding/json`.
A missing map key and JSON `null` both read as `null` (the nil interface). -/
inductive JVal where
  | null
  | bool (b : Bool)
  | num (x : F64)
  | str (s : String)
  | arr (xs : List JVal)
  | obj (kvs : List (String × JVal))

/-- A decoded `map[string]interface{}`. -/
abbrev JMap := List (String × JVal)

/-- Map indexing `m[key]`: the bound value, or the nil interface. -/
def JMap.index : JMap → String → JVal
  | [], _ => .null
  | (k, v) :: rest, key => if k = key then v else JMap.index rest key

/-- Type assertion `v.(float64)`; panics on any other dynamic type. -/
def JVal.asFloat : JVal → Res F64
  | .num x => .ok x
  | _ => .panic "interface conversion: interface is not float64"

/-- Type assertion `v.(string)`. -/
def JVal.asString : JVal → Res String
  | .str s => .ok s
  | _ => .panic "interface conversion: interface is not string"

/-- Type assertion `v.([]interface{})`. -/
def JVal.asSlice : JVal → Res (List JVal)
  | .arr xs => .ok xs
  | _ => .panic "interface conversion: interface is not []interface"

/-- Type assertion `v.(map[string]interface{})`. -/
def JVal.asMap : JVal → Res JMap
  | .obj kvs => .ok kvs
  | _ => .panic "interface conversion: interface is not map[string]interface"

/-- Comma-ok assertion `x, ok := v.(float64)`. -/
def JVal.float? : JVal → Option F64
  | .num x => some x
  | _ => none

/-- Comma-ok assertion `x, ok := v.([]interface{})`. -/
def JVal.slice? : JVal → Option (List JVal)
  | .arr xs => some xs
  | _ => none

/-- Comma-ok assertion `x, ok := v.(map[string]interface{})`. -/
def JVal.map? : JVal → Option JMap
  | .obj kvs => some kvs
  | _ => none

/-- Slice indexing `xs[i]`; panics when `i` is out of range. -/
def sliceIndex {α : Type} (xs : List α) (i : Nat) : Res α :=
  match xs.get? i with
  | some x => .ok x
  | none => .panic "index out of range"

/-! ## `url.Values` -/

/-- The type `url.Values`, a `map[string][]string`, as an association list. -/
abbrev Values := List (String × List String)

/-- Map indexing `v[key]`: the values bound to `key`, if any. -/
def Values.lookup : Values → String → Option (List String)
  | [], _ => none
  | (k, vs) :: rest, key => if k = key then some vs else Values.lookup rest key

/-- The method `Values.Set`: `key` is bound to the single value `value`. -/
def Values.Set (v : Values) (key value : String) : Values :=
  (key, [value]) :: v.filter (fun p => p.1 ≠ key)

/-- Byte-wise order of two strings, as character lists (code-point order, which is
the byte order of their UTF-8 encodings). -/
def ltChars : List Char → List Char → Bool
  | _, [] => false
  | [], _ :: _ => true
  | a :: as, b :: bs => a.toNat < b.toNat || (a.toNat = b.toNat && ltChars as bs)

/-- Insertion of a key into a list of keys sorted in increasing order. -/
def insertKey (k : String) : List String → List String
  | [] => [k]
  | x :: xs => if ltChars x.data k.data then x :: insertKey k xs else k :: x :: xs

/-- The keys in increasing order, as `sort.Strings` leaves them. -/
def sortKeys : List String → List String
  | [] => []
  | k :: ks => insertKey k (sortKeys ks)

/-- The distinct keys of the map. -/
def Values.keys (v : Values) : List String := (v.map Prod.fst).eraseDups

/-- The key/value entries that `Values.Encode` writes, in the order written: keys
sorted, and under each key its values in their stored order. -/
def Values.entries (v : Values) : List (String × String) :=
  (sortKeys v.keys).flatMap (fun k => ((v.lookup k).getD []).map (fun x => (k, x)))

/-- The method `Values.Encode`, given `url.QueryEscape`: the entries as
`key=value` joined by `&`. -/
def Values.Encode (escape : String → String) (v : Values) : String :=
  String.intercalate "&" (v.entries.map (fun p => escape p.1 ++ "=" ++ escape p.2))

/-! ## Canonical entities (parent package) -/

/-- Modelled from the spec: the pair of currencies naming a market (type `CurrencyPair`
of the parent package), two currency symbols. -/
structure CurrencyPair where
  CurrencyA : String
  CurrencyB : String
  deriving DecidableEq, Repr

/-- Modelled from the spec: the entity `Order` of the parent package; `Status` and `Side`
are integer-based enum types whose zero value is `0`. -/
structure Order where
  Price : F64
  Amount : F64
  AvgPrice : F64
  DealAmount : F64
  OrderID : Int
  OrderTime : Int
  Status : Int
  Currency : CurrencyPair
  Side : Int
  deriving DecidableEq, Repr

/-- The zero value of `Order` (`new(Order)`, `var order Order`). -/
def Order.zero : Order :=
  ⟨F64.zero, F64.zero, F64.zero, F64.zero, 0, 0, 0, ⟨"", ""⟩, 0⟩

/-- The assignment `order.Status = s`. -/
def Order.setStatus (o : Order) (s : Int) : Order := { o with Status := s }

/-- The assignment `order.Side = s`. -/
def Order.setSide (o : Order) (s : Int) : Order := { o with Side := s }

/-- Modelled from the spec: the entity `Ticker` of the parent package. -/
structure Ticker where
  Last : F64
  Buy : F64
  Sell : F64
  High : F64
  Low : F64
  Vol : F64
  Date : Nat
  deriving DecidableEq, Repr

/-- Modelled from the spec: the entity `DepthRecord` of the parent package. -/
structure DepthRecord where
  Price : F64
  Amount : F64
  deriving DecidableEq, Repr

/-- Modelled from the spec: the entity `Depth` of the parent package. -/
structure Depth where
  AskList : List DepthRecord
  BidList : List DepthRecord
  deriving DecidableEq, Repr

/-- Modelled from the spec: the entity `Kline` of the parent package. -/
structure Kline where
  Timestamp : Int
  Open : F64
  Close : F64
  High : F64
  Low : F64
  Vol : F64
  deriving DecidableEq, Repr

/-- Modelled from the spec: the entity `Trade` of the parent package. -/
structure Trade where
  Tid : Int
  Type_ : String
  Amount : F64
  Price : F64
  Date : Int
  deriving DecidableEq, Repr

/-- Modelled from the spec: a currency of the parent package, named by its symbol. -/
abbrev Currency := String

/-- Modelled from the spec: the entity `SubAccount` of the parent package. -/
structure SubAccount where
  Currency : Currency
  Amount : F64
  ForzenAmount : F64
  LoanAmount : F64
  deriving DecidableEq, Repr

/-- Modelled from the spec: the entity `Account` of the parent package; the map of
sub-accounts is an association list in the order the keys are assigned. -/
structure Account where
  Exchange : String
  Asset : F64
  NetAsset : F64
  SubAccounts : List (Currency × SubAccount)
  deriving DecidableEq, Repr

def BTC : Currency := "BTC"
def LTC : Currency := "LTC"
def CNY : Currency := "CNY"
def ETH : Currency := "ETH"
def ETC : Currency := "ETC"
def BCC : Currency := "BCC"

/-- A reading of the wall clock, `time.Now()` in the local zone: the calendar fields
the code looks at. -/
structure Now where
  Year : Int
  Month : Int
  Day : Int
  Hour : Int
  deriving DecidableEq, Repr

/-- The body of an HTTP response: its bytes and what `encoding/json` makes of them. -/
structure Body where
  raw : String
  json : Except String JVal

/-! ## Collaborators -/

/-- Everything `OKCoin_CN.go` uses and does not define. -/
structure Collab where
  /-- The helper `GetParamMD5Sign(secret, params)` of the parent package. -/
  GetParamMD5Sign : String → String → Except String String
  /-- The function `url.QueryEscape`. -/
  QueryEscape : String → String
  /-- The function `strings.ToUpper`. -/
  ToUpper : String → String
  /-- The function `strings.ToLower`. -/
  ToLower : String → String
  /-- The method `CurrencyPair.ToSymbol(joinChar)`. -/
  ToSymbol : CurrencyPair → String → String
  /-- The text `fmt.Sprint` gives a `float64`. -/
  Sprint : F64 → String
  /-- The first result of `strconv.ParseFloat(s, 64)`. -/
  ParseFloat : String → F64
  /-- The first result of `strconv.ParseUint(s, 10, 64)`. -/
  ParseUint : String → Nat
  /-- The helper `ToFloat64` of the parent package. -/
  ToFloat64 : JVal → F64
  /-- The helper `ToInt64` of the parent package. -/
  ToInt64 : JVal → Int
  /-- The implementation-dependent result of converting to an integer a `float64`
  whose integer part is not an `int64`. -/
  convOutOfRange : F64 → Int
  /-- The transport `HttpPostForm(client, url, form)`. -/
  HttpPostForm : String → Values → Except String Body
  /-- The transport `HttpGet(client, url)`. -/
  HttpGet : String → Except String JMap
  /-- The call `http.Get(url)` followed by `ioutil.ReadAll`. -/
  httpGetBody : String → Except String Body
  /-- The value `time.Date(y, mo, d, h, m, s, 0, time.Local).Unix()`. -/
  dateUnix : Int → Int → Int → Int → Int → Int → Int
  /-- Year, month and day of `now.AddDate(0, 0, -1)`, the calendar day before `now`. -/
  prevDay : Now → Int × Int × Int
  /-- The call `json.Unmarshal(body, &trades)` for a `[]Trade`. -/
  unmarshalTrades : Body → Except String (List Trade)
  /-- The lookup `_INERNAL_KLINE_PERIOD_CONVERTER[period]`, keyed by constants of the
  parent package. -/
  klinePeriod : Int → String
  /-- Modelled from the spec: the enum constants of the parent package. -/
  ORDER_UNFINISH : Int
  ORDER_PART_FINISH : Int
  ORDER_FINISH : Int
  ORDER_CANCEL : Int
  ORDER_CANCEL_ING : Int
  BUY : Int
  SELL : Int
  BUY_MARKET : Int
  SELL_MARKET : Int

/-- The conversions `int(f)` and `int64(f)` of a `float64`: the integer part when it
is an `int64`. -/
def Collab.toInt (c : Collab) (x : F64) : Int :=
  if inInt64 x.trunc then x.trunc else c.convOutOfRange x

/-! ## The client -/

def API_BASE_URL : String := "https://www.okex.com/api/v1/"
def EXCHANGE_NAME_CN : String := "okcoin.cn"
def url_ticker : String := "ticker.do"
def url_depth : String := "depth.do"
def url_trades : String := "trades.do"
def url_userinfo : String := "userinfo.do"
def url_trade : String := "trade.do"
def url_cancel_order : String := "cancel_order.do"
def url_order_info : String := "order_info.do"
def url_orders_info : String := "orders_info.do"
def order_history_uri : String := "order_history.do"
def trade_uri : String := "trade_history.do"

/-- The struct `OKCoinCN_API` (the HTTP client is part of the transport). -/
structure OKCoinCN_API where
  api_key : String
  secret_key : String
  api_base_url : String
  deriving DecidableEq, Repr

/-- The constructor `New`. -/
def New (api_key secret_key : String) : OKCoinCN_API :=
  ⟨api_key, secret_key, API_BASE_URL⟩

/-- The method `buildPostForm`: the form as it leaves it, and the returned error if any. -/
def buildPostForm (c : Collab) (ctx : OKCoinCN_API) (postForm : Values) : Values × Option String :=
  let postForm := postForm.Set "api_key" ctx.api_key
  let payload := Values.Encode c.QueryEscape postForm
  let payload := payload ++ "&secret_key=" ++ ctx.secret_key
  match c.GetParamMD5Sign ctx.secret_key payload with
  | .error err => (postForm, some err)
  | .ok sign => (postForm.Set "sign" (c.ToUpper sign), none)

/-- What an operation did: the POST requests it issued, oldest first, and its result. -/
structure Outcome (α : Type) where
  posts : List (String × Values)
  res : Res α

/-- The call `json.Unmarshal(body, &respMap)` for a `map[string]interface{}`. -/
def unmarshalMap (b : Body) : Except String JMap :=
  match b.json with
  | .error e => .error e
  | .ok (.obj kvs) => .ok kvs
  | .ok .null => .ok []
  | .ok _ => .error "json: cannot unmarshal value into Go value of type map[string]interface"

/-- Lines 91-100 of `placeOrder`: the form before it is signed. -/
def placeOrder_postData (c : Collab) (side amount price : String) (currency : CurrencyPair) : Values :=
  let postData : Values := []
  let postData := postData.Set "type" side
  let postData := if side ≠ "buy_market" then postData.Set "amount" amount else postData
  let postData := if side ≠ "sell_market" then postData.Set "price" price else postData
  postData.Set "symbol" (c.ToLower (c.ToSymbol currency "_"))

/-- Lines 121-139 of `placeOrder`: the response map turned into an `Order`. -/
def placeOrder_normalize (c : Collab) (side amount price : String) (currency : CurrencyPair)
    (respMap : JMap) : Res Order :=
  match (respMap.index "error_code").float? with
  | some err => .err (c.Sprint err)
  | none => do
    let order := Order.zero
    let id ← (respMap.index "order_id").asFloat
    let order := { order with OrderID := c.toInt id }
    let order := { order with Price := c.ParseFloat price }
    let order := { order with Amount := c.ParseFloat amount }
    let order := { order with Currency := currency }
    let order := { order with Status := c.ORDER_UNFINISH }
    let order :=
      if side = "buy" then order.setSide c.BUY
      else if side = "sell" then order.setSide c.SELL
      else order
    pure order

/-- The method `placeOrder`. -/
def placeOrder (c : Collab) (ctx : OKCoinCN_API) (side amount price : String)
    (currency : CurrencyPair) : Outcome Order :=
  let postData := placeOrder_postData c side amount price currency
  match buildPostForm c ctx postData with
  | (_, some err) => ⟨[], .err err⟩
  | (postData, none) =>
    let url := ctx.api_base_url ++ url_trade
    match c.HttpPostForm url postData with
    | .error err => ⟨[(url, postData)], .err err⟩
    | .ok body =>
      match unmarshalMap body with
      | .error err => ⟨[(url, postData)], .err err⟩
      | .ok respMap => ⟨[(url, postData)], placeOrder_normalize c side amount price currency respMap⟩

/-- Sequential traversal of a slice, stopping at the first error or panic. -/
def mapRes {α β : Type} (f : α → Res β) : List α → Res (List β)
  | [] => .ok []
  | x :: xs =>
    match f x with
    | .ok y =>
      match mapRes f xs with
      | .ok ys => .ok (y :: ys)
      | .err e => .err e
      | .panic e => .panic e
    | .err e => .err e
    | .panic e => .panic e

/-- Lines 167-182 of `CancelOrder`: the transport result turned into the answer. -/
def CancelOrder_normalize (c : Collab) (respMap : JMap) : Res Bool :=
  match (respMap.index "error_code").float? with
  | some err => .err (c.Sprint err)
  | none => .ok true

/-- The method `CancelOrder`; the result of `buildPostForm` is not looked at. -/
def CancelOrder (c : Collab) (ctx : OKCoinCN_API) (orderId : String)
    (currency : CurrencyPair) : Outcome Bool :=
  let postData : Values := []
  let postData := postData.Set "order_id" orderId
  let postData := postData.Set "symbol" (c.ToLower (c.ToSymbol currency "_"))
  let postData := (buildPostForm c ctx postData).1
  let url := ctx.api_base_url ++ url_cancel_order
  match c.HttpPostForm url postData with
  | .error err => ⟨[(url, postData)], .err err⟩
  | .ok body =>
    match unmarshalMap body with
    | .error err => ⟨[(url, postData)], .err err⟩
    | .ok respMap => ⟨[(url, postData)], CancelOrder_normalize c respMap⟩

/-- Lines 213-249 of `getOrders`: one element of `orders` turned into an `Order`. -/
def getOrders_element (c : Collab) (currency : CurrencyPair) (v : JVal) : Res Order := do
  let orderMap ← v.asMap
  let order := Order.zero
  let order := { order with Currency := currency }
  let order := { order with OrderID := c.toInt (← (orderMap.index "order_id").asFloat) }
  let order := { order with Amount := (← (orderMap.index "amount").asFloat) }
  let order := { order with Price := (← (orderMap.index "price").asFloat) }
  let order := { order with DealAmount := (← (orderMap.index "deal_amount").asFloat) }
  let order := { order with AvgPrice := (← (orderMap.index "avg_price").asFloat) }
  let order := { order with OrderTime := c.toInt (← (orderMap.index "create_date").asFloat) }
  let status := c.toInt (← (orderMap.index "status").asFloat)
  let order :=
    if status = -1 then order.setStatus c.ORDER_CANCEL
    else if status = 0 then order.setStatus c.ORDER_UNFINISH
    else if status = 1 then order.setStatus c.ORDER_PART_FINISH
    else if status = 2 then order.setStatus c.ORDER_FINISH
    else if status = 4 then order.setStatus c.ORDER_CANCEL_ING
    else order
  let typ ← (orderMap.index "type").asString
  let order :=
    if typ = "buy" then order.setSide c.BUY
    else if typ = "sell" then order.setSide c.SELL
    else if typ = "buy_market" then order.setSide c.BUY_MARKET
    else if typ = "sell_market" then order.setSide c.SELL_MARKET
    else order
  pure order

/-- Lines 205-253 of `getOrders`: the response map turned into the orders. -/
def getOrders_normalize (c : Collab) (currency : CurrencyPair) (respMap : JMap) :
    Res (List Order) :=
  match (respMap.index "error_code").float? with
  | some err => .err (c.Sprint err)
  | none => do
    let orders ← (respMap.index "orders").asSlice
    mapRes (getOrders_element c currency) orders

/-- The method `getOrders`; the result of `buildPostForm` is not looked at. -/
def getOrders (c : Collab) (ctx : OKCoinCN_API) (orderId : String)
    (currency : CurrencyPair) : Outcome (List Order) :=
  let postData : Values := []
  let postData := postData.Set "order_id" orderId
  let postData := postData.Set "symbol" (c.ToLower (c.ToSymbol currency "_"))
  let postData := (buildPostForm c ctx postData).1
  let url := ctx.api_base_url ++ url_order_info
  match c.HttpPostForm url postData with
  | .error err => ⟨[(url, postData)], .err err⟩
  | .ok body =>
    match unmarshalMap body with
    | .error err => ⟨[(url, postData)], .err err⟩
    | .ok respMap => ⟨[(url, postData)], getOrders_normalize c currency respMap⟩

/-- The method `GetExchangeName`. -/
def GetExchangeName : String := EXCHANGE_NAME_CN

/-- Lines 292-356 of `GetAccount`: the response map turned into an `Account`. -/
def GetAccount_normalize (c : Collab) (body : Body) (respMap : JMap) : Res Account :=
  match (respMap.index "error_code").float? with
  | some err => .err (c.Sprint err)
  | none =>
    match (respMap.index "info").map? with
    | none => .err body.raw
    | some info => do
      let funds ← (info.index "funds").asMap
      let asset ← (funds.index "asset").asMap
      let free ← (funds.index "free").asMap
      let freezed ← (funds.index "freezed").asMap
      let total := c.ParseFloat (← (asset.index "total").asString)
      let net := c.ParseFloat (← (asset.index "net").asString)
      let btcFree := c.ParseFloat (← (free.index "btc").asString)
      let btcFrozen := c.ParseFloat (← (freezed.index "btc").asString)
      let ltcFree := c.ParseFloat (← (free.index "ltc").asString)
      let ltcFrozen := c.ParseFloat (← (freezed.index "ltc").asString)
      let ethFree := c.ParseFloat (← (free.index "eth").asString)
      let ethFrozen := c.ParseFloat (← (freezed.index "eth").asString)
      let etcSubAccount : SubAccount :=
        ⟨ETC, c.ToFloat64 (free.index "etc"), c.ToFloat64 (freezed.index "etc"), F64.zero⟩
      let bccSubAccount : SubAccount :=
        ⟨BCC, c.ToFloat64 (free.index "bcc"), c.ToFloat64 (freezed.index "bcc"), F64.zero⟩
      let cnyFree := c.ParseFloat (← (free.index "cny").asString)
      let cnyFrozen := c.ParseFloat (← (freezed.index "cny").asString)
      pure {
        Exchange := GetExchangeName
        Asset := total
        NetAsset := net
        SubAccounts := [
          (BTC, ⟨BTC, btcFree, btcFrozen, F64.zero⟩),
          (LTC, ⟨LTC, ltcFree, ltcFrozen, F64.zero⟩),
          (CNY, ⟨CNY, cnyFree, cnyFrozen, F64.zero⟩),
          (ETH, ⟨ETH, ethFree, ethFrozen, F64.zero⟩),
          (ETC, etcSubAccount),
          (BCC, bccSubAccount)] }

/-- The method `GetAccount`. -/
def GetAccount (c : Collab) (ctx : OKCoinCN_API) : Outcome Account :=
  let postData : Values := []
  match buildPostForm c ctx postData with
  | (_, some err) => ⟨[], .err err⟩
  | (postData, none) =>
    let url := ctx.api_base_url ++ url_userinfo
    match c.HttpPostForm url postData with
    | .error err => ⟨[(url, postData)], .err err⟩
    | .ok body =>
      match unmarshalMap body with
      | .error err => ⟨[(url, postData)], .err err⟩
      | .ok respMap => ⟨[(url, postData)], GetAccount_normalize c body respMap⟩

/-- Lines 369-378 of `GetTicker`: the response map turned into a `Ticker`. -/
def GetTicker_normalize (c : Collab) (bodyDataMap : JMap) : Res Ticker := do
  let tickerMap ← (bodyDataMap.index "ticker").asMap
  let date := c.ParseUint (← (bodyDataMap.index "date").asString)
  let last := c.ParseFloat (← (tickerMap.index "last").asString)
  let buy := c.ParseFloat (← (tickerMap.index "buy").asString)
  let sell := c.ParseFloat (← (tickerMap.index "sell").asString)
  let low := c.ParseFloat (← (tickerMap.index "low").asString)
  let high := c.ParseFloat (← (tickerMap.index "high").asString)
  let vol := c.ParseFloat (← (tickerMap.index "vol").asString)
  pure { Date := date, Last := last, Buy := buy, Sell := sell, Low := low, High := high, Vol := vol }

/-- The method `GetTicker`. -/
def GetTicker (c : Collab) (ctx : OKCoinCN_API) (currency : CurrencyPair) : Res Ticker :=
  let url := ctx.api_base_url ++ url_ticker ++ "?symbol=" ++ c.ToLower (c.ToSymbol currency "_")
  match c.HttpGet url with
  | .error err => .err err
  | .ok bodyDataMap => GetTicker_normalize c bodyDataMap

/-- Lines 398-405 of `GetDepth`: the loop `for i, vv := range row` over one ask or bid
row, from index `i` on. -/
def GetDepth_row : List JVal → Nat → DepthRecord → Res DepthRecord
  | [], _, dr => .ok dr
  | vv :: rest, i, dr =>
    if i = 0 then
      match vv.asFloat with
      | .ok x => GetDepth_row rest (i + 1) { dr with Price := x }
      | .err e => .err e
      | .panic e => .panic e
    else if i = 1 then
      match vv.asFloat with
      | .ok x => GetDepth_row rest (i + 1) { dr with Amount := x }
      | .err e => .err e
      | .panic e => .panic e
    else GetDepth_row rest (i + 1) dr

/-- Lines 396-407 of `GetDepth`: one element of `asks` or `bids` turned into a record. -/
def GetDepth_record (v : JVal) : Res DepthRecord := do
  let row ← v.asSlice
  GetDepth_row row 0 ⟨F64.zero, F64.zero⟩

/-- Lines 395-408 and 410-423 of `GetDepth`: one side of the book; a field that is
not a slice leaves the side empty. -/
def GetDepth_side (field : JVal) : Res (List DepthRecord) :=
  match field.slice? with
  | some dep => mapRes GetDepth_record dep
  | none => .ok []

/-- Lines 391-425 of `GetDepth`: the response map turned into a `Depth`. -/
def GetDepth_normalize (c : Collab) (bodyDataMap : JMap) : Res Depth :=
  match (bodyDataMap.index "error_code").float? with
  | some err => .err (c.Sprint err)
  | none => do
    let asks ← GetDepth_side (bodyDataMap.index "asks")
    let bids ← GetDepth_side (bodyDataMap.index "bids")
    pure { AskList := asks, BidList := bids }

/-- The method `GetDepth`. -/
def GetDepth (c : Collab) (ctx : OKCoinCN_API) (size : Int) (currency : CurrencyPair) : Res Depth :=
  let url := ctx.api_base_url ++ url_depth ++ "?symbol=" ++ c.ToLower (c.ToSymbol currency "_")
    ++ "&size=" ++ toString size
  match c.HttpGet url with
  | .error err => .err err
  | .ok bodyDataMap => GetDepth_normalize c bodyDataMap

/-- Lines 513-547 of `GetOrderHistorys`: one element of `orders` turned into an `Order`. -/
def GetOrderHistorys_element (c : Collab) (currency : CurrencyPair) (v : JVal) : Res Order := do
  let orderMap ← v.asMap
  let order := Order.zero
  let order := { order with Currency := currency }
  let order := { order with OrderID := c.toInt (← (orderMap.index "order_id").asFloat) }
  let order := { order with Amount := (← (orderMap.index "amount").asFloat) }
  let order := { order with Price := (← (orderMap.index "price").asFloat) }
  let order := { order with DealAmount := (← (orderMap.index "deal_amount").asFloat) }
  let order := { order with AvgPrice := (← (orderMap.index "avg_price").asFloat) }
  let order := { order with OrderTime := c.toInt (← (orderMap.index "create_date").asFloat) }
  let status := c.toInt (← (orderMap.index "status").asFloat)
  let order :=
    if status = -1 then order.setStatus c.ORDER_CANCEL
    else if status = 0 then order.setStatus c.ORDER_UNFINISH
    else if status = 1 then order.setStatus c.ORDER_PART_FINISH
    else if status = 2 then order.setStatus c.ORDER_FINISH
    else if status = 4 then order.setStatus c.ORDER_CANCEL_ING
    else order
  let typ ← (orderMap.index "type").asString
  let order :=
    if typ = "buy" then order.setSide c.BUY
    else if typ = "sell" then order.setSide c.SELL
    else order
  pure order

/-- Lines 506-549 of `GetOrderHistorys`: the response map turned into the orders. -/
def GetOrderHistorys_normalize (c : Collab) (currency : CurrencyPair) (respMap : JMap) :
    Res (List Order) :=
  match (respMap.index "error_code").float? with
  | some err => .err (c.Sprint err)
  | none => do
    let orders ← (respMap.index "orders").asSlice
    mapRes (GetOrderHistorys_element c currency) orders

/-- The method `GetOrderHistorys`. -/
def GetOrderHistorys (c : Collab) (ctx : OKCoinCN_API) (currency : CurrencyPair)
    (currentPage pageSize : Int) : Outcome (List Order) :=
  let orderHistoryUrl := ctx.api_base_url ++ order_history_uri
  let postData : Values := []
  let postData := postData.Set "status" "1"
  let postData := postData.Set "symbol" (c.ToLower (c.ToSymbol currency "_"))
  let postData := postData.Set "current_page" (toString currentPage)
  let postData := postData.Set "page_length" (toString pageSize)
  match buildPostForm c ctx postData with
  | (_, some err) => ⟨[], .err err⟩
  | (postData, none) =>
    match c.HttpPostForm orderHistoryUrl postData with
    | .error err => ⟨[(orderHistoryUrl, postData)], .err err⟩
    | .ok body =>
      match unmarshalMap body with
      | .error err => ⟨[(orderHistoryUrl, postData)], .err err⟩
      | .ok respMap =>
        ⟨[(orderHistoryUrl, postData)], GetOrderHistorys_normalize c currency respMap⟩

/-- The method `GetTrades`. -/
def GetTrades (c : Collab) (ctx : OKCoinCN_API) (currencyPair : CurrencyPair) (since : Int) :
    Outcome (List Trade) :=
  let tradeUrl := ctx.api_base_url ++ trade_uri
  let postData : Values := []
  let postData := postData.Set "symbol" (c.ToLower (c.ToSymbol currencyPair "_"))
  let postData := postData.Set "since" (toString since)
  match buildPostForm c ctx postData with
  | (_, some err) => ⟨[], .err err⟩
  | (postData, none) =>
    match c.HttpPostForm tradeUrl postData with
    | .error err => ⟨[(tradeUrl, postData)], .err err⟩
    | .ok body =>
      match c.unmarshalTrades body with
      | .error err => ⟨[(tradeUrl, postData)], .err err⟩
      | .ok trades => ⟨[(tradeUrl, postData)], .ok trades⟩

/-! ## Stream sessions -/

/-- What `c.NextReader()` gives the read loop: an error, or a frame with what
`encoding/json` makes of its content. -/
inductive ReadEvent where
  | readErr (e : String)
  | frame (content : Except String JVal)

/-- How a run of the read loop stands after the events it was given: it returned on a
read error (connection and `done` closed by the deferred calls), it panicked, or it is
blocked waiting for the next frame. -/
inductive SessionEnd where
  | closed (e : String)
  | crashed (msg : String)
  | waiting
  deriving DecidableEq, Repr

/-- One element of a decoded `[]map[string]interface{}`: an object, or `null` for a
nil map. -/
def msgElement : JVal → Option JMap
  | .obj kvs => some kvs
  | .null => some []
  | _ => none

/-- All elements of the top-level array as maps, if each one is an object or `null`. -/
def msgElements : List JVal → Option (List JMap)
  | [] => some []
  | x :: xs =>
    match msgElement x, msgElements xs with
    | some m, some ms => some (m :: ms)
    | _, _ => none

/-- The call `jsonReader.Decode(&msgmap)` for a `[]map[string]interface{}`. -/
def decodeMsgmap (content : Except String JVal) : Except String (List JMap) :=
  match content with
  | .error e => .error e
  | .ok (.arr xs) =>
    match msgElements xs with
    | some ms => .ok ms
    | none => .error "json: cannot unmarshal value into Go value of type map[string]interface"
  | .ok .null => .ok []
  | .ok _ => .error "json: cannot unmarshal value into Go value of type []map[string]interface"

/-- Lines 639-645 and 647-653 of `GetDepthChan`: one ask or bid row turned into a record. -/
def GetDepthChan_record (c : Collab) (r : JVal) : Res DepthRecord := do
  let rr ← r.asSlice
  let price := c.ToFloat64 (← sliceIndex rr 0)
  let amount := c.ToFloat64 (← sliceIndex rr 1)
  pure { Price := price, Amount := amount }

/-- Lines 621-655 of `GetDepthChan`: one frame turned into the `Depth` sent on the
channel.  Here `err` stands for a frame that is logged and skipped (`continue`). -/
def GetDepthChan_frame (c : Collab) (content : Except String JVal) : Res Depth :=
  match decodeMsgmap content with
  | .error err => .err ("decode json: " ++ err)
  | .ok msgmap => do
    let first ← sliceIndex msgmap 0
    match (first.index "data").map? with
    | none => .err "msg"
    | some tick =>
      let bids := ((tick.index "bids").slice?).getD []
      let asks := ((tick.index "asks").slice?).getD []
      let askList ← mapRes (GetDepthChan_record c) asks
      let bidList ← mapRes (GetDepthChan_record c) bids
      pure { AskList := askList, BidList := bidList }

/-- The read branch of the loop of `GetDepthChan` run over the frames the connection
yields: the values sent on the channel, and how the run stands.  The keepalive branch
only writes pings and is left out. -/
def GetDepthChan_loop (c : Collab) : List ReadEvent → List Depth × SessionEnd
  | [] => ([], .waiting)
  | .readErr e :: _ => ([], .closed e)
  | .frame content :: rest =>
    match GetDepthChan_frame c content with
    | .ok d => (d :: (GetDepthChan_loop c rest).1, (GetDepthChan_loop c rest).2)
    | .err _ => GetDepthChan_loop c rest
    | .panic msg => ([], .crashed msg)

/-- The function `strings.Split(s, ":")` on character lists. -/
def splitColon : List Char → List (List Char)
  | [] => [[]]
  | ch :: rest =>
    match splitColon rest with
    | [] => [[ch]]
    | p :: ps => if ch = ':' then [] :: p :: ps else (ch :: p) :: ps

/-- The value of a non-empty run of decimal digits read after the digits `acc`. -/
def digitsValue : List Char → Nat → Option Nat
  | [], acc => some acc
  | ch :: rest, acc =>
    if 48 ≤ ch.toNat ∧ ch.toNat ≤ 57 then digitsValue rest (acc * 10 + (ch.toNat - 48)) else none

/-- The unsigned part of `strconv.Atoi`: digits only, at least one. -/
def unsignedValue (s : List Char) : Option Nat :=
  match s with
  | [] => none
  | _ :: _ => digitsValue s 0

/-- The first result of `strconv.Atoi`: `0` on a syntax error, the nearest `int64` on
a range error. -/
def Atoi (s : List Char) : Int :=
  match s with
  | '-' :: ds =>
    match unsignedValue ds with
    | some n => if (n : Int) ≤ 2 ^ 63 then -(n : Int) else -(2 ^ 63)
    | none => 0
  | '+' :: ds =>
    match unsignedValue ds with
    | some n => if (n : Int) < 2 ^ 63 then (n : Int) else 2 ^ 63 - 1
    | none => 0
  | ds =>
    match unsignedValue ds with
    | some n => if (n : Int) < 2 ^ 63 then (n : Int) else 2 ^ 63 - 1
    | none => 0

/-- Lines 724-733 of `GetTradeChan`: the `Date` of a trade whose tuple time is
`h:m:s`, read at wall-clock time `now`; `date0` is the value the field holds before. -/
def GetTradeChan_date (c : Collab) (now : Now) (h m s : Int) (date0 : Int) : Int :=
  if now.Hour = 0 then
    if h ≤ 23 ∧ h ≥ 20 then
      let pre := c.prevDay now
      c.dateUnix pre.1 pre.2.1 pre.2.2 h m s * 1000
    else if h = 0 then
      c.dateUnix now.Year now.Month now.Day h m s * 1000
    else date0
  else
    c.dateUnix now.Year now.Month now.Day h m s * 1000

/-- Lines 711-736 of `GetTradeChan`: one trade tuple turned into a `Trade`, with the
clock read at `now`. -/
def GetTradeChan_tuple (c : Collab) (now : Now) (d : JVal) : Res Trade := do
  let dd ← d.asSlice
  let tid := c.ToInt64 (← sliceIndex dd 0)
  let price := c.ToFloat64 (← sliceIndex dd 1)
  let amount := c.ToFloat64 (← sliceIndex dd 2)
  let timeStr ← (← sliceIndex dd 3).asString
  let timeMeta := splitColon timeStr.data
  let h := Atoi (← sliceIndex timeMeta 0)
  let m := Atoi (← sliceIndex timeMeta 1)
  let s := Atoi (← sliceIndex timeMeta 2)
  let date := GetTradeChan_date c now h m s 0
  let type_ ← (← sliceIndex dd 4).asString
  pure { Tid := tid, Price := price, Amount := amount, Date := date, Type_ := type_ }

/-- The loop `for _, d := range data` of `GetTradeChan`; `clock i` is the reading
`time.Now()` gives while the tuple at position `i` is decoded. -/
def GetTradeChan_tuples (c : Collab) (clock : Nat → Now) : List JVal → Nat → Res (List Trade)
  | [], _ => .ok []
  | d :: rest, i =>
    match GetTradeChan_tuple c (clock i) d with
    | .ok t =>
      match GetTradeChan_tuples c clock rest (i + 1) with
      | .ok ts => .ok (t :: ts)
      | .err e => .err e
      | .panic e => .panic e
    | .err e => .err e
    | .panic e => .panic e

/-- Lines 694-739 of `GetTradeChan`: one frame turned into the trades sent on the
channel.  Here `err` stands for a frame that is logged and skipped (`continue`). -/
def GetTradeChan_frame (c : Collab) (clock : Nat → Now) (content : Except String JVal) :
    Res (List Trade) :=
  match decodeMsgmap content with
  | .error err => .err ("decode json: " ++ err)
  | .ok msgmap => do
    let first ← sliceIndex msgmap 0
    match (first.index "data").slice? with
    | none => .err "get trade msg"
    | some data => GetTradeChan_tuples c clock data 0

/-- The loop of `GetTradeChan` run over the frames the connection yields: the values
sent on the channel, and how the run stands; `clock n i` is the clock reading for the
tuple at position `i` of the frame numbered `n`, and `n` numbers the next frame. -/
def GetTradeChan_loop (c : Collab) (clock : Nat → Nat → Now) :
    List ReadEvent → Nat → List (List Trade) × SessionEnd
  | [], _ => ([], .waiting)
  | .readErr e :: _, _ => ([], .closed e)
  | .frame content :: rest, n =>
    match GetTradeChan_frame c (clock n) content with
    | .ok ts =>
      (ts :: (GetTradeChan_loop c clock rest (n + 1)).1, (GetTradeChan_loop c clock rest (n + 1)).2)
    | .err _ => GetTradeChan_loop c clock rest (n + 1)
    | .panic msg => ([], .crashed msg)

/-! ## Candlesticks -/

def url_kline_symbol : String := "kline.do?symbol="

/-- The constant `url_kline` filled in by `fmt.Sprintf`. -/
def url_kline (symbol type_ : String) (size since : Int) : String :=
  url_kline_symbol ++ symbol ++ "&type=" ++ type_ ++ "&size=" ++ toString size
    ++ "&since=" ++ toString since

/-- One element of a decoded `[][]interface{}`: an array, or `null` for a nil slice. -/
def klineRow : JVal → Option (List JVal)
  | .arr xs => some xs
  | .null => some []
  | _ => none

/-- All elements of the top-level array as rows, if each one is an array or `null`. -/
def klineRows : List JVal → Option (List (List JVal))
  | [] => some []
  | x :: xs =>
    match klineRow x, klineRows xs with
    | some r, some rs => some (r :: rs)
    | _, _ => none

/-- The call `json.Unmarshal(body, &klines)` for a `[][]interface{}`. -/
def unmarshalKlines (b : Body) : Except String (List (List JVal)) :=
  match b.json with
  | .error e => .error e
  | .ok (.arr xs) =>
    match klineRows xs with
    | some rows => .ok rows
    | none => .error "json: cannot unmarshal value into Go value of type []interface"
  | .ok .null => .ok []
  | .ok _ => .error "json: cannot unmarshal value into Go value of type [][]interface"

/-- Lines 458-473 of `GetKlineRecords`: the loop `for i, e := range record` over one
row, from index `i` on. -/
def GetKlineRecords_row (c : Collab) : List JVal → Nat → Kline → Res Kline
  | [], _, r => .ok r
  | e :: rest, i, r =>
    if i = 0 then
      match e.asFloat with
      | .ok x => GetKlineRecords_row c rest (i + 1) { r with Timestamp := Int.tdiv (c.toInt x) 1000 }
      | .err msg => .err msg
      | .panic msg => .panic msg
    else if i = 1 then
      match e.asFloat with
      | .ok x => GetKlineRecords_row c rest (i + 1) { r with Open := x }
      | .err msg => .err msg
      | .panic msg => .panic msg
    else if i = 2 then
      match e.asFloat with
      | .ok x => GetKlineRecords_row c rest (i + 1) { r with High := x }
      | .err msg => .err msg
      | .panic msg => .panic msg
    else if i = 3 then
      match e.asFloat with
      | .ok x => GetKlineRecords_row c rest (i + 1) { r with Low := x }
      | .err msg => .err msg
      | .panic msg => .panic msg
    else if i = 4 then
      match e.asFloat with
      | .ok x => GetKlineRecords_row c rest (i + 1) { r with Close := x }
      | .err msg => .err msg
      | .panic msg => .panic msg
    else if i = 5 then
      match e.asFloat with
      | .ok x => GetKlineRecords_row c rest (i + 1) { r with Vol := x }
      | .err msg => .err msg
      | .panic msg => .panic msg
    else GetKlineRecords_row c rest (i + 1) r

/-- The zero value `Kline{}`. -/
def Kline.zero : Kline := ⟨0, F64.zero, F64.zero, F64.zero, F64.zero, F64.zero⟩

/-- Lines 454-477 of `GetKlineRecords`: the decoded rows turned into klines. -/
def GetKlineRecords_normalize (c : Collab) (klines : List (List JVal)) : Res (List Kline) :=
  mapRes (fun record => GetKlineRecords_row c record 0 Kline.zero) klines

/-- The method `GetKlineRecords`. -/
def GetKlineRecords (c : Collab) (ctx : OKCoinCN_API) (currency : CurrencyPair)
    (period size since : Int) : Res (List Kline) :=
  let klineUrl := ctx.api_base_url
    ++ url_kline (c.ToLower (c.ToSymbol currency "_")) (c.klinePeriod period) size since
  match c.httpGetBody klineUrl with
  | .error err => .err err
  | .ok body =>
    match unmarshalKlines body with
    | .error err => .err err
    | .ok klines => GetKlineRecords_normalize c klines

/-- The form `placeOrder` hands to the transport when signing succeeds: the built
form after `buildPostForm`. -/
def placeOrder_sent (c : Collab) (ctx : OKCoinCN_API) (side amount price : String)
    (currency : CurrencyPair) : Values :=
  (buildPostForm c ctx (placeOrder_postData c side amount price currency)).1

/-! ## Sample collaborators, for evaluating the code on concrete inputs -/

/-- A response body holding the given decoded JSON. -/
def Body.ofJson (j : JVal) : Body := ⟨"", .ok j⟩

/-- Days from 1970-01-01 to the civil date `y`-`m`-`d` of the proleptic Gregorian
calendar; linear in `d`, so a day number outside the month is carried over as `time.Date`
does. -/
def daysFromCivil (y m d : Int) : Int :=
  let y1 := if m ≤ 2 then y - 1 else y
  let era := y1 / 400
  let yoe := y1 - era * 400
  let doy := (153 * (m + (if m > 2 then -3 else 9)) + 2) / 5 + d - 1
  let doe := yoe * 365 + yoe / 4 - yoe / 100 + doy
  era * 146097 + doe - 719468

/-- The value `time.Date(y, mo, d, h, m, s, 0, time.UTC).Unix()`. -/
def utcUnix (y mo d h m s : Int) : Int :=
  daysFromCivil y mo d * 86400 + h * 3600 + m * 60 + s

/-- Collaborators for concrete runs: the digest always succeeds with `5d41`, the
escapes and case maps are the identity, the transport answers with `reply`, the local zone
is UTC, the day before `now` is taken within the month, and the enum constants are distinct
sample values with the sides different from the zero value. -/
def sampleCollab (reply : JVal) : Collab where
  GetParamMD5Sign := fun _ _ => .ok "5d41"
  QueryEscape := fun s => s
  ToUpper := fun s => s
  ToLower := fun s => s
  ToSymbol := fun p j => p.CurrencyA ++ j ++ p.CurrencyB
  Sprint := fun x => toString x.trunc
  ParseFloat := fun _ => F64.zero
  ParseUint := fun _ => 0
  ToFloat64 := fun v => match v with
    | .num x => x
    | _ => F64.zero
  ToInt64 := fun v => match v with
    | .num x => x.trunc
    | _ => 0
  convOutOfRange := fun _ => -(2 ^ 63)
  HttpPostForm := fun _ _ => .ok (Body.ofJson reply)
  HttpGet := fun _ => match reply with
    | .obj kvs => .ok kvs
    | _ => .error "HttpGet: not a JSON object"
  httpGetBody := fun _ => .ok (Body.ofJson reply)
  dateUnix := utcUnix
  prevDay := fun now => (now.Year, now.Month, now.Day - 1)
  unmarshalTrades := fun _ => .ok []
  klinePeriod := fun _ => "1min"
  ORDER_UNFINISH := 0
  ORDER_PART_FINISH := 1
  ORDER_FINISH := 2
  ORDER_CANCEL := 3
  ORDER_CANCEL_ING := 5
  BUY := 1
  SELL := 2
  BUY_MARKET := 3
  SELL_MARKET := 4

/-- The same collaborators with a digest that always fails. -/
def failingDigest (reply : JVal) : Collab :=
  { sampleCollab reply with GetParamMD5Sign := fun _ _ => .error "digest failed" }

/-- The same collaborators with a digest that hands back the string it was given. -/
def echoDigest (reply : JVal) : Collab :=
  { sampleCollab reply with GetParamMD5Sign := fun _ params => .ok params }

/-- An element of `orders` with every field the order normalizers read. -/
def orderElement (id amount price deal avg created status : F64) (typ : String) : JMap :=
  [("order_id", .num id), ("amount", .num amount), ("price", .num price),
    ("deal_amount", .num deal), ("avg_price", .num avg), ("create_date", .num created),
    ("status", .num status), ("type", .str typ)]

/-- The JSON of a list of `[price, amount]` number pairs. -/
def depthRows (l : List (F64 × F64)) : JVal :=
  .arr (l.map (fun p => .arr [.num p.1, .num p.2]))

/-- The `asks` or `bids` field of a depth response: a list of number pairs, or missing. -/
def depthField : Option (List (F64 × F64)) → JVal
  | some l => depthRows l
  | none => .null

/-- The record of a `[price, amount]` pair. -/
def depthRecordOf (p : F64 × F64) : DepthRecord := ⟨p.1, p.2⟩

/-- A kline row of numbers: the six entries that are read, and whatever follows them. -/
structure KlineInput where
  ts : F64
  o : F64
  h : F64
  l : F64
  cl : F64
  v : F64
  extra : List JVal

/-- The decoded row. -/
def KlineInput.toRow (r : KlineInput) : List JVal :=
  [.num r.ts, .num r.o, .num r.h, .num r.l, .num r.cl, .num r.v] ++ r.extra

/-- The kline the claim assigns to a row. -/
def KlineInput.toKline (r : KlineInput) : Kline :=
  { Timestamp := Int.tdiv r.ts.trunc 1000, Open := r.o, High := r.h, Low := r.l, Close := r.cl,
    Vol := r.v }

/-- A client with fixed credentials. -/
def sampleCtx : OKCoinCN_API := New "KEY" "SECRET"

/-- The pair btc/cny. -/
def btc_cny : CurrencyPair := ⟨"btc", "cny"⟩

/-! ## Lemmas on `url.Values` -/

theorem Values.lookup_filter_ne (v : Values) (k key : String) (h : key ≠ k) :
    Values.lookup (v.filter (fun p => p.1 ≠ k)) key = Values.lookup v key := by
  induction v with
  | nil => rfl
  | cons p rest ih =>
    obtain ⟨a, b⟩ := p
    rw [List.filter_cons]
    split
    · by_cases hkey : a = key
      · simp only [Values.lookup, hkey, if_true]
      · simp only [Values.lookup, hkey, if_false]
        exact ih
    · rename_i hdec
      have hak : a = k := by simpa using hdec
      have hne : ¬ a = key := fun e => h (by rw [← e, hak])
      simp only [Values.lookup, hne, if_false]
      exact ih

theorem Values.lookup_Set_same (v : Values) (k x : String) :
    Values.lookup (v.Set k x) k = some [x] := by
  simp [Values.Set, Values.lookup]

theorem Values.lookup_Set_other (v : Values) (k x key : String) (h : key ≠ k) :
    Values.lookup (v.Set k x) key = Values.lookup v key := by
  have hne : ¬ k = key := fun e => h e.symm
  simp only [Values.Set, Values.lookup, hne, if_false]
  exact Values.lookup_filter_ne v k key h

/-- Signing touches only `api_key` and `sign`. -/
theorem buildPostForm_lookup_other (c : Collab) (ctx : OKCoinCN_API) (postForm : Values)
    (key : String) (h1 : key ≠ "api_key") (h2 : key ≠ "sign") :
    Values.lookup (buildPostForm c ctx postForm).1 key = Values.lookup postForm key := by
  unfold buildPostForm
  cases hd : c.GetParamMD5Sign ctx.secret_key
      (Values.Encode c.QueryEscape (postForm.Set "api_key" ctx.api_key) ++ "&secret_key="
        ++ ctx.secret_key) with
  | error e => simp [hd, Values.lookup_Set_other _ _ _ _ h1]
  | ok s => simp [hd, Values.lookup_Set_other _ _ _ _ h1, Values.lookup_Set_other _ _ _ _ h2]

theorem ltChars_irrefl (a : List Char) : ltChars a a = false := by
  induction a with
  | nil => rfl
  | cons x xs ih => simp [ltChars, ih]

theorem ltChars_asymm (a b : List Char) (h : ltChars a b = true) : ltChars b a = false := by
  induction a generalizing b with
  | nil => cases b <;> simp [ltChars] at h ⊢
  | cons x xs ih =>
    cases b with
    | nil => simp [ltChars] at h
    | cons y ys =>
      simp only [ltChars, Bool.or_eq_true, Bool.and_eq_true, decide_eq_true_eq] at h
      simp only [ltChars, Bool.or_eq_false_iff, Bool.and_eq_false_imp, decide_eq_false_iff_not,
        decide_eq_true_eq]
      rcases h with h | ⟨h1, h2⟩
      · exact ⟨by omega, fun e => by omega⟩
      · exact ⟨by omega, fun _ => ih ys h2⟩

theorem ltChars_le_trans (a b c : List Char) (h1 : ltChars b a = false)
    (h2 : ltChars c b = false) : ltChars c a = false := by
  induction a generalizing b c with
  | nil => cases c <;> rfl
  | cons x xs ih =>
    cases b with
    | nil => simp [ltChars] at h1
    | cons y ys =>
      cases c with
      | nil => simp [ltChars] at h2
      | cons z zs =>
        simp only [ltChars, Bool.or_eq_false_iff, Bool.and_eq_false_imp, decide_eq_false_iff_not,
          decide_eq_true_eq] at h1 h2 ⊢
        refine ⟨by omega, fun e => ?_⟩
        have hyx : y.toNat = x.toNat := by omega
        have hzy : z.toNat = y.toNat := by omega
        exact ih ys zs (h1.2 hyx) (h2.2 hzy)

theorem mem_insertKey (k x : String) (xs : List String) (h : x ∈ insertKey k xs) :
    x = k ∨ x ∈ xs := by
  induction xs with
  | nil => simpa [insertKey] using h
  | cons y ys ih =>
    simp only [insertKey] at h
    split at h
    · rcases List.mem_cons.mp h with h | h
      · exact Or.inr (h ▸ List.mem_cons_self _ _)
      · rcases ih h with h | h
        · exact Or.inl h
        · exact Or.inr (List.mem_cons_of_mem _ h)
    · rcases List.mem_cons.mp h with h | h
      · exact Or.inl h
      · exact Or.inr h

theorem insertKey_sorted (k : String) (xs : List String)
    (h : xs.Pairwise (fun a b => ltChars b.data a.data = false)) :
    (insertKey k xs).Pairwise (fun a b => ltChars b.data a.data = false) := by
  induction xs with
  | nil => simp [insertKey]
  | cons y ys ih =>
    obtain ⟨hy, hys⟩ := List.pairwise_cons.mp h
    simp only [insertKey]
    split
    · rename_i hlt
      refine List.pairwise_cons.mpr ⟨fun z hz => ?_, ih hys⟩
      rcases mem_insertKey k z ys hz with hz | hz
      · subst hz
        exact ltChars_asymm _ _ hlt
      · exact hy z hz
    · rename_i hlt
      have hky : ltChars y.data k.data = false := by simpa using hlt
      refine List.pairwise_cons.mpr ⟨fun z hz => ?_, h⟩
      rcases List.mem_cons.mp hz with hz | hz
      · subst hz
        exact hky
      · exact ltChars_le_trans _ _ _ hky (hy z hz)

/-- The keys come out of `sortKeys` in increasing byte order. -/
theorem sortKeys_sorted (ks : List String) :
    (sortKeys ks).Pairwise (fun a b => ltChars b.data a.data = false) := by
  induction ks with
  | nil => exact List.Pairwise.nil
  | cons k ks ih => exact insertKey_sorted k _ ih

/-- The entries `Values.Encode` writes are in increasing order of their keys. -/
theorem Values.entries_sorted (v : Values) :
    v.entries.Pairwise (fun p q => ltChars q.1.data p.1.data = false) := by
  simp only [Values.entries]
  refine List.pairwise_flatMap.mpr ⟨fun k _ => ?_, ?_⟩
  · refine List.pairwise_map.mpr ?_
    exact List.pairwise_of_forall (fun _ _ => ltChars_irrefl _)
  · refine List.Pairwise.imp ?_ (sortKeys_sorted v.keys)
    intro a b hab x hx y hy
    obtain ⟨_, _, rfl⟩ := List.mem_map.mp hx
    obtain ⟨_, _, rfl⟩ := List.mem_map.mp hy
    exact hab

/-! ## C1: the order form -/

/-- C1, as stated, fails: for side `buy_market` with amount `100` and price `1` the one
form `placeOrder` transmits carries `price` bound to `1` and has no `amount` key. -/
theorem placeOrder_buy_market_keeps_price :
    (placeOrder (sampleCollab .null) sampleCtx "buy_market" "100" "1" btc_cny).posts.map
        (fun p => (p.2.lookup "price", p.2.lookup "amount"))
      = [(some ["1"], none)] := by
  decide

/-- C1, amended: the form `placeOrder` builds has no `amount` key for side `buy_market`
(and `price` with the caller's value), no `price` key for side `sell_market` (and `amount`
with the caller's value), and both with the caller's values for sides `buy` and `sell`;
signing leaves those two keys as built, and the form is transmitted only signed, to the
trade endpoint. -/
theorem placeOrder_form_keys (c : Collab) (ctx : OKCoinCN_API) (amount price : String)
    (currency : CurrencyPair) :
    ((placeOrder_postData c "buy_market" amount price currency).lookup "amount" = none
      ∧ (placeOrder_postData c "buy_market" amount price currency).lookup "price" = some [price])
    ∧ ((placeOrder_postData c "sell_market" amount price currency).lookup "price" = none
      ∧ (placeOrder_postData c "sell_market" amount price currency).lookup "amount" = some [amount])
    ∧ ((placeOrder_postData c "buy" amount price currency).lookup "amount" = some [amount]
      ∧ (placeOrder_postData c "buy" amount price currency).lookup "price" = some [price])
    ∧ ((placeOrder_postData c "sell" amount price currency).lookup "amount" = some [amount]
      ∧ (placeOrder_postData c "sell" amount price currency).lookup "price" = some [price])
    ∧ (∀ side : String,
        (placeOrder_sent c ctx side amount price currency).lookup "amount"
            = (placeOrder_postData c side amount price currency).lookup "amount"
        ∧ (placeOrder_sent c ctx side amount price currency).lookup "price"
            = (placeOrder_postData c side amount price currency).lookup "price"
        ∧ ((placeOrder c ctx side amount price currency).posts = []
          ∨ (placeOrder c ctx side amount price currency).posts
              = [(ctx.api_base_url ++ url_trade, placeOrder_sent c ctx side amount price currency)])) := by
  refine ⟨?_, ?_, ?_, ?_, ?_⟩
  · simp [placeOrder_postData, Values.Set, Values.lookup]
  · simp [placeOrder_postData, Values.Set, Values.lookup]
  · simp [placeOrder_postData, Values.Set, Values.lookup]
  · simp [placeOrder_postData, Values.Set, Values.lookup]
  · intro side
    refine ⟨?_, ?_, ?_⟩
    · exact buildPostForm_lookup_other c ctx _ "amount" (by decide) (by decide)
    · exact buildPostForm_lookup_other c ctx _ "price" (by decide) (by decide)
    · rcases hb : buildPostForm c ctx (placeOrder_postData c side amount price currency)
        with ⟨form, _ | e⟩
      · right
        simp only [placeOrder, placeOrder_sent, hb]
        split
        · rfl
        · split <;> rfl
      · left
        simp only [placeOrder, hb]

/-! ## C2: `error_code` in REST responses -/

/-- The six normalizers that look at `error_code` fail with the printed code, whatever
else the response holds. -/
theorem error_code_aborts (c : Collab) (respMap : JMap) (code : F64)
    (h : respMap.index "error_code" = .num code) (side amount price : String)
    (currency : CurrencyPair) (body : Body) :
    placeOrder_normalize c side amount price currency respMap = .err (c.Sprint code)
    ∧ CancelOrder_normalize c respMap = .err (c.Sprint code)
    ∧ getOrders_normalize c currency respMap = .err (c.Sprint code)
    ∧ GetAccount_normalize c body respMap = .err (c.Sprint code)
    ∧ GetOrderHistorys_normalize c currency respMap = .err (c.Sprint code)
    ∧ GetDepth_normalize c respMap = .err (c.Sprint code) := by
  simp [placeOrder_normalize, CancelOrder_normalize, getOrders_normalize, GetAccount_normalize,
    GetOrderHistorys_normalize, GetDepth_normalize, h, JVal.float?]

/-- C2 at `GetTicker`: a response map with a numeric `error_code` next to a `date` and a
`ticker` of strings is normalized to a `Ticker` and no failure is returned; with the
`error_code` alone the call panics on the missing `ticker` instead of returning a failure
that carries the code. -/
theorem GetTicker_ignores_error_code (c : Collab) (code : F64)
    (date last buy sell low high vol : String) :
    GetTicker_normalize c
        [("error_code", .num code), ("date", .str date),
          ("ticker", .obj [("last", .str last), ("buy", .str buy), ("sell", .str sell),
            ("low", .str low), ("high", .str high), ("vol", .str vol)])]
      = .ok { Date := c.ParseUint date, Last := c.ParseFloat last, Buy := c.ParseFloat buy,
              Sell := c.ParseFloat sell, Low := c.ParseFloat low, High := c.ParseFloat high,
              Vol := c.ParseFloat vol }
    ∧ GetTicker_normalize c [("error_code", .num code)]
      = .panic "interface conversion: interface is not map[string]interface" := by
  constructor <;> rfl

/-! ## C3: the date of a streamed trade -/

/-- The three cases in which `GetTradeChan` assigns the date, and the one in which it
does not. -/
theorem GetTradeChan_date_cases (c : Collab) (now : Now) (h m s date0 : Int) :
    (now.Hour ≠ 0 →
      GetTradeChan_date c now h m s date0 = c.dateUnix now.Year now.Month now.Day h m s * 1000)
    ∧ (now.Hour = 0 → 20 ≤ h → h ≤ 23 →
      GetTradeChan_date c now h m s date0
        = c.dateUnix (c.prevDay now).1 (c.prevDay now).2.1 (c.prevDay now).2.2 h m s * 1000)
    ∧ (now.Hour = 0 → h = 0 →
      GetTradeChan_date c now h m s date0 = c.dateUnix now.Year now.Month now.Day h m s * 1000)
    ∧ (now.Hour = 0 → h ≠ 0 → (h < 20 ∨ 23 < h) →
      GetTradeChan_date c now h m s date0 = date0) := by
  refine ⟨?_, ?_, ?_, ?_⟩
  · intro h0
    simp [GetTradeChan_date, h0]
  · intro h0 h1 h2
    simp [GetTradeChan_date, h0, h1, h2]
  · intro h0 h1
    subst h1
    simp [GetTradeChan_date, h0]
  · intro h0 h1 h2
    have h3 : ¬ (h ≤ 23 ∧ h ≥ 20) := by omega
    simp [GetTradeChan_date, h0, h1, h3]

/-- C3 at wall-clock hour 0 and tuple hour 5: on 2024-03-10 at hour 0 (local zone UTC)
the tuple `[7, 2, 3, "05:00:00", "buy"]` is decoded to a trade whose `Date` is `0`, the
zero value, while 05:00:00 on that calendar day is 1710046800000 in epoch milliseconds. -/
theorem GetTradeChan_hour0_leaves_date_zero :
    GetTradeChan_tuple (sampleCollab .null) ⟨2024, 3, 10, 0⟩
        (.arr [.num ⟨7, 0⟩, .num ⟨2, 0⟩, .num ⟨3, 0⟩, .str "05:00:00", .str "buy"])
      = .ok { Tid := 7, Price := ⟨2, 0⟩, Amount := ⟨3, 0⟩, Date := 0, Type_ := "buy" }
    ∧ (sampleCollab .null).dateUnix 2024 3 10 5 0 0 * 1000 = 1710046800000 := by
  constructor <;> decide

/-! ## C6: signing failures -/

/-- The operations that look at the result of `buildPostForm` return its error and issue
no POST. -/
theorem signing_failure_propagates (c : Collab) (ctx : OKCoinCN_API) (side amount price : String)
    (currency : CurrencyPair) (currentPage pageSize since : Int) (e : String)
    (h : ∀ form : Values, (buildPostForm c ctx form).2 = some e) :
    ((placeOrder c ctx side amount price currency).posts = []
      ∧ (placeOrder c ctx side amount price currency).res = .err e)
    ∧ ((GetAccount c ctx).posts = [] ∧ (GetAccount c ctx).res = .err e)
    ∧ ((GetOrderHistorys c ctx currency currentPage pageSize).posts = []
      ∧ (GetOrderHistorys c ctx currency currentPage pageSize).res = .err e)
    ∧ ((GetTrades c ctx currency since).posts = []
      ∧ (GetTrades c ctx currency since).res = .err e) := by
  have key : ∀ form : Values, ∃ f, buildPostForm c ctx form = (f, some e) := by
    intro form
    exact ⟨(buildPostForm c ctx form).1, Prod.ext rfl (h form)⟩
  refine ⟨?_, ?_, ?_, ?_⟩
  · obtain ⟨f, hf⟩ := key (placeOrder_postData c side amount price currency)
    simp [placeOrder, hf]
  · obtain ⟨f, hf⟩ := key []
    simp [GetAccount, hf]
  · obtain ⟨f, hf⟩ := key ((((Values.Set [] "status" "1").Set "symbol"
      (c.ToLower (c.ToSymbol currency "_"))).Set "current_page" (toString currentPage)).Set
      "page_length" (toString pageSize))
    simp [GetOrderHistorys, hf]
  · obtain ⟨f, hf⟩ := key ((Values.Set [] "symbol"
      (c.ToLower (c.ToSymbol currency "_"))).Set "since" (toString since))
    simp [GetTrades, hf]

/-- C6 at `CancelOrder` and `getOrders`: with a digest that fails, `buildPostForm`
returns the error, and both operations still issue one POST, of a form that has `api_key`
and no `sign`, and return what the response says (`true`, an empty order list) and not the
signing error. -/
theorem CancelOrder_getOrders_post_unsigned :
    (buildPostForm (failingDigest .null) sampleCtx
        ((Values.Set [] "order_id" "42").Set "symbol" "btc_cny")).2 = some "digest failed"
    ∧ (CancelOrder (failingDigest (.obj [("result", .bool true)])) sampleCtx "42" btc_cny).res
        = .ok true
    ∧ (CancelOrder (failingDigest (.obj [("result", .bool true)])) sampleCtx "42" btc_cny).posts.map
        (fun p => (p.1, p.2.lookup "order_id", p.2.lookup "api_key", p.2.lookup "sign"))
        = [("https://www.okex.com/api/v1/cancel_order.do", some ["42"], some ["KEY"], none)]
    ∧ (getOrders (failingDigest (.obj [("orders", .arr [])])) sampleCtx "42" btc_cny).res
        = .ok []
    ∧ (getOrders (failingDigest (.obj [("orders", .arr [])])) sampleCtx "42" btc_cny).posts.map
        (fun p => (p.1, p.2.lookup "order_id", p.2.lookup "api_key", p.2.lookup "sign"))
        = [("https://www.okex.com/api/v1/order_info.do", some ["42"], some ["KEY"], none)] := by
  refine ⟨?_, ?_, ?_, ?_, ?_⟩ <;> decide

/-! ## C4 and C9: the status and side of an order -/

theorem Res.bind_ok {α β : Type} (a : α) (f : α → Res β) : (Res.ok a >>= f) = f a := rfl

theorem Res.bind_panic {α β : Type} (e : String) (f : α → Res β) :
    ((Res.panic e : Res α) >>= f) = Res.panic e := rfl

theorem Order.setSide_Status (o : Order) (s : Int) : (o.setSide s).Status = o.Status := rfl

theorem Order.setStatus_Status (o : Order) (s : Int) : (o.setStatus s).Status = s := rfl

theorem Order.setSide_Side (o : Order) (s : Int) : (o.setSide s).Side = s := rfl

theorem Order.setStatus_Side (o : Order) (s : Int) : (o.setStatus s).Side = o.Side := rfl

/-- C4: for an order element whose fields have the types `getOrders` asserts and whose
status code is an `int64`, normalization succeeds and the status is CANCELLED, UNFINISHED,
PART_FINISHED, FINISHED, CANCELLING for the codes -1, 0, 1, 2, 4, and the zero value of the
status type for every other code. -/
theorem getOrders_status_mapping (c : Collab) (currency : CurrencyPair) (m : JMap)
    (id amount price deal avg created status : F64) (typ : String)
    (hid : m.index "order_id" = .num id) (hamount : m.index "amount" = .num amount)
    (hprice : m.index "price" = .num price) (hdeal : m.index "deal_amount" = .num deal)
    (havg : m.index "avg_price" = .num avg) (hcreated : m.index "create_date" = .num created)
    (hstatus : m.index "status" = .num status) (htype : m.index "type" = .str typ)
    (hrange : inInt64 status.trunc) :
    ∃ o, getOrders_element c currency (.obj m) = .ok o
      ∧ o.Status =
        (if status.trunc = -1 then c.ORDER_CANCEL
         else if status.trunc = 0 then c.ORDER_UNFINISH
         else if status.trunc = 1 then c.ORDER_PART_FINISH
         else if status.trunc = 2 then c.ORDER_FINISH
         else if status.trunc = 4 then c.ORDER_CANCEL_ING
         else 0) := by
  have hconv : c.toInt status = status.trunc := by simp [Collab.toInt, hrange]
  simp only [getOrders_element, JVal.asMap, hid, hamount, hprice, hdeal, havg, hcreated, hstatus,
    htype, JVal.asFloat, JVal.asString, Res.bind_ok, hconv]
  refine ⟨_, rfl, ?_⟩
  simp only [apply_ite Order.Status, Order.setSide_Status, Order.setStatus_Status, ite_self]
  rfl

/-- The theorem `getOrders_status_mapping` at a concrete element: status code 4, and
status code 3, which is outside the mapping. -/
theorem getOrders_status_mapping_witness :
    (∃ o, getOrders_element (sampleCollab .null) btc_cny
        (.obj (orderElement ⟨9, 0⟩ ⟨1, 0⟩ ⟨2, 0⟩ ⟨0, 0⟩ ⟨0, 0⟩ ⟨5, 0⟩ ⟨4, 0⟩ "sell")) = .ok o
      ∧ o.Status = 5)
    ∧ (∃ o, getOrders_element (sampleCollab .null) btc_cny
        (.obj (orderElement ⟨9, 0⟩ ⟨1, 0⟩ ⟨2, 0⟩ ⟨0, 0⟩ ⟨0, 0⟩ ⟨5, 0⟩ ⟨3, 0⟩ "sell")) = .ok o
      ∧ o.Status = 0) :=
  ⟨getOrders_status_mapping (sampleCollab .null) btc_cny _ ⟨9, 0⟩ ⟨1, 0⟩ ⟨2, 0⟩ ⟨0, 0⟩ ⟨0, 0⟩ ⟨5, 0⟩
      ⟨4, 0⟩ "sell" rfl rfl rfl rfl rfl rfl rfl rfl (by decide),
    getOrders_status_mapping (sampleCollab .null) btc_cny _ ⟨9, 0⟩ ⟨1, 0⟩ ⟨2, 0⟩ ⟨0, 0⟩ ⟨0, 0⟩ ⟨5, 0⟩
      ⟨3, 0⟩ "sell" rfl rfl rfl rfl rfl rfl rfl rfl (by decide)⟩

/-- The two order paths give the same result on every element whose type is neither
`buy_market` nor `sell_market`. -/
theorem order_paths_agree (c : Collab) (currency : CurrencyPair) (v : JVal)
    (h : ∀ m, v = .obj m → JMap.index m "type" ≠ .str "buy_market"
      ∧ JMap.index m "type" ≠ .str "sell_market") :
    GetOrderHistorys_element c currency v = getOrders_element c currency v := by
  cases v with
  | obj m =>
    obtain ⟨hb, hs⟩ := h m rfl
    simp only [getOrders_element, GetOrderHistorys_element, JVal.asMap, Res.bind_ok]
    cases JMap.index m "order_id" <;> simp only [JVal.asFloat, Res.bind_ok, Res.bind_panic]
    cases JMap.index m "amount" <;> simp only [JVal.asFloat, Res.bind_ok, Res.bind_panic]
    cases JMap.index m "price" <;> simp only [JVal.asFloat, Res.bind_ok, Res.bind_panic]
    cases JMap.index m "deal_amount" <;> simp only [JVal.asFloat, Res.bind_ok, Res.bind_panic]
    cases JMap.index m "avg_price" <;> simp only [JVal.asFloat, Res.bind_ok, Res.bind_panic]
    cases JMap.index m "create_date" <;> simp only [JVal.asFloat, Res.bind_ok, Res.bind_panic]
    cases JMap.index m "status" <;> simp only [JVal.asFloat, Res.bind_ok, Res.bind_panic]
    cases ht : JMap.index m "type" <;> simp only [JVal.asString, Res.bind_ok, Res.bind_panic]
    rename_i t
    have h1 : t ≠ "buy_market" := fun e => hb (by rw [ht, e])
    have h2 : t ≠ "sell_market" := fun e => hs (by rw [ht, e])
    simp only [h1, h2, if_false]
  | null => simp only [getOrders_element, GetOrderHistorys_element, JVal.asMap, Res.bind_panic]
  | bool b => simp only [getOrders_element, GetOrderHistorys_element, JVal.asMap, Res.bind_panic]
  | num x => simp only [getOrders_element, GetOrderHistorys_element, JVal.asMap, Res.bind_panic]
  | str s => simp only [getOrders_element, GetOrderHistorys_element, JVal.asMap, Res.bind_panic]
  | arr xs => simp only [getOrders_element, GetOrderHistorys_element, JVal.asMap, Res.bind_panic]

/-- C9 at the types `buy_market` and `sell_market`: on the same order element `getOrders`
sets the side to BUY_MARKET (SELL_MARKET) while `GetOrderHistorys` leaves it at the zero
value; with sample constants (BUY_MARKET = 3) the two orders differ. -/
theorem order_paths_differ_on_market_sides (c : Collab) (currency : CurrencyPair)
    (id amount price deal avg created status : F64) :
    (∃ o h, getOrders_element c currency
          (.obj (orderElement id amount price deal avg created status "buy_market")) = .ok o
        ∧ GetOrderHistorys_element c currency
          (.obj (orderElement id amount price deal avg created status "buy_market")) = .ok h
        ∧ o.Side = c.BUY_MARKET ∧ h.Side = 0 ∧ o.Status = h.Status)
    ∧ (∃ o h, getOrders_element c currency
          (.obj (orderElement id amount price deal avg created status "sell_market")) = .ok o
        ∧ GetOrderHistorys_element c currency
          (.obj (orderElement id amount price deal avg created status "sell_market")) = .ok h
        ∧ o.Side = c.SELL_MARKET ∧ h.Side = 0 ∧ o.Status = h.Status)
    ∧ getOrders_element (sampleCollab .null) btc_cny
          (.obj (orderElement ⟨9, 0⟩ ⟨1, 0⟩ ⟨2, 0⟩ ⟨0, 0⟩ ⟨0, 0⟩ ⟨5, 0⟩ ⟨0, 0⟩ "buy_market"))
        ≠ GetOrderHistorys_element (sampleCollab .null) btc_cny
          (.obj (orderElement ⟨9, 0⟩ ⟨1, 0⟩ ⟨2, 0⟩ ⟨0, 0⟩ ⟨0, 0⟩ ⟨5, 0⟩ ⟨0, 0⟩ "buy_market")) := by
  have i1 : ∀ t, (orderElement id amount price deal avg created status t).index "order_id"
      = .num id := fun _ => rfl
  have i2 : ∀ t, (orderElement id amount price deal avg created status t).index "amount"
      = .num amount := fun _ => rfl
  have i3 : ∀ t, (orderElement id amount price deal avg created status t).index "price"
      = .num price := fun _ => rfl
  have i4 : ∀ t, (orderElement id amount price deal avg created status t).index "deal_amount"
      = .num deal := fun _ => rfl
  have i5 : ∀ t, (orderElement id amount price deal avg created status t).index "avg_price"
      = .num avg := fun _ => rfl
  have i6 : ∀ t, (orderElement id amount price deal avg created status t).index "create_date"
      = .num created := fun _ => rfl
  have i7 : ∀ t, (orderElement id amount price deal avg created status t).index "status"
      = .num status := fun _ => rfl
  have i8 : ∀ t, (orderElement id amount price deal avg created status t).index "type"
      = .str t := fun _ => rfl
  refine ⟨?_, ?_, by decide⟩
  · simp only [getOrders_element, GetOrderHistorys_element, JVal.asMap, i1, i2, i3, i4, i5, i6,
      i7, i8, JVal.asFloat, JVal.asString, Res.bind_ok]
    refine ⟨_, _, rfl, rfl, ?_, ?_, ?_⟩
    · simp [Order.setSide_Side]
    · simp only [show ¬ ("buy_market" = "buy") by decide, show ¬ ("buy_market" = "sell") by decide,
        if_false, apply_ite Order.Side, Order.setStatus_Side, ite_self]
      rfl
    · simp only [show ¬ ("buy_market" = "buy") by decide, show ¬ ("buy_market" = "sell") by decide,
        if_false, if_true, Order.setSide_Status]
  · simp only [getOrders_element, GetOrderHistorys_element, JVal.asMap, i1, i2, i3, i4, i5, i6,
      i7, i8, JVal.asFloat, JVal.asString, Res.bind_ok]
    refine ⟨_, _, rfl, rfl, ?_, ?_, ?_⟩
    · simp [Order.setSide_Side]
    · simp only [show ¬ ("sell_market" = "buy") by decide,
        show ¬ ("sell_market" = "sell") by decide,
        if_false, apply_ite Order.Side, Order.setStatus_Side, ite_self]
      rfl
    · simp only [show ¬ ("sell_market" = "buy") by decide,
        show ¬ ("sell_market" = "sell") by decide,
        show ¬ ("sell_market" = "buy_market") by decide,
        if_false, if_true, Order.setSide_Status]

/-! ## Traversals -/

theorem mapRes_map_ok {α β γ : Type} (f : α → Res β) (g : γ → α) (k : γ → β) (l : List γ)
    (h : ∀ x ∈ l, f (g x) = .ok (k x)) : mapRes f (l.map g) = .ok (l.map k) := by
  induction l with
  | nil => rfl
  | cons x xs ih =>
    have hx : f (g x) = .ok (k x) := h x (List.mem_cons_self x xs)
    have hxs : mapRes f (xs.map g) = .ok (xs.map k) :=
      ih (fun y hy => h y (List.mem_cons_of_mem x hy))
    simp only [List.map_cons, mapRes, hx, hxs]

/-! ## C10: the order book -/

theorem GetDepth_side_field (side : Option (List (F64 × F64))) :
    GetDepth_side (depthField side) = .ok ((side.getD []).map depthRecordOf) := by
  cases side with
  | none => rfl
  | some l =>
    simp only [depthField, depthRows, GetDepth_side, JVal.slice?, Option.getD_some]
    exact mapRes_map_ok GetDepth_record _ depthRecordOf l (fun _ _ => rfl)

/-- C10: when the depth response has no numeric `error_code` and each of `asks` and `bids`
is a list of `[price, amount]` number pairs or is missing, `GetDepth` returns a `Depth`
whose lists hold, in the order received, one record per row with the row's price and
amount, and are empty for a missing field. -/
theorem GetDepth_preserves_rows (c : Collab) (ctx : OKCoinCN_API) (size : Int)
    (currency : CurrencyPair) (m : JMap) (asks bids : Option (List (F64 × F64)))
    (hget : c.HttpGet (ctx.api_base_url ++ url_depth ++ "?symbol="
      ++ c.ToLower (c.ToSymbol currency "_") ++ "&size=" ++ toString size) = .ok m)
    (herr : (m.index "error_code").float? = none)
    (hasks : m.index "asks" = depthField asks) (hbids : m.index "bids" = depthField bids) :
    GetDepth c ctx size currency
        = .ok { AskList := (asks.getD []).map depthRecordOf,
                BidList := (bids.getD []).map depthRecordOf }
    ∧ ((asks.getD []).map depthRecordOf).length = (asks.getD []).length
    ∧ ((bids.getD []).map depthRecordOf).length = (bids.getD []).length := by
  refine ⟨?_, List.length_map _ _, List.length_map _ _⟩
  simp only [GetDepth, hget, GetDepth_normalize, herr, hasks, hbids, GetDepth_side_field,
    Res.bind_ok]
  rfl

/-- The theorem `GetDepth_preserves_rows` on a response with two asks, not in price
order, and no `bids` field. -/
theorem GetDepth_preserves_rows_witness :
    GetDepth (sampleCollab (.obj [("asks", depthRows [(⟨3, 0⟩, ⟨1, 0⟩), (⟨2, 0⟩, ⟨5, 0⟩)])]))
        sampleCtx 5 btc_cny
      = .ok { AskList := [⟨⟨3, 0⟩, ⟨1, 0⟩⟩, ⟨⟨2, 0⟩, ⟨5, 0⟩⟩], BidList := [] } :=
  (GetDepth_preserves_rows
    (sampleCollab (.obj [("asks", depthRows [(⟨3, 0⟩, ⟨1, 0⟩), (⟨2, 0⟩, ⟨5, 0⟩)])]))
    sampleCtx 5 btc_cny [("asks", depthRows [(⟨3, 0⟩, ⟨1, 0⟩), (⟨2, 0⟩, ⟨5, 0⟩)])]
    (some [(⟨3, 0⟩, ⟨1, 0⟩), (⟨2, 0⟩, ⟨5, 0⟩)]) none rfl rfl rfl rfl).1

/-! ## C7: candlesticks -/

theorem GetKlineRecords_row_extra (c : Collab) (extra : List JVal) (i : Nat) (r : Kline)
    (hi : 6 ≤ i) : GetKlineRecords_row c extra i r = .ok r := by
  induction extra generalizing i with
  | nil => rfl
  | cons e rest ih =>
    have h0 : ¬ i = 0 := by omega
    have h1 : ¬ i = 1 := by omega
    have h2 : ¬ i = 2 := by omega
    have h3 : ¬ i = 3 := by omega
    have h4 : ¬ i = 4 := by omega
    have h5 : ¬ i = 5 := by omega
    simp only [GetKlineRecords_row, h0, h1, h2, h3, h4, h5, if_false]
    exact ih (i + 1) (by omega)

theorem GetKlineRecords_row_0 (c : Collab) (x : F64) (rest : List JVal) (r : Kline) :
    GetKlineRecords_row c (.num x :: rest) 0 r
      = GetKlineRecords_row c rest 1 { r with Timestamp := Int.tdiv (c.toInt x) 1000 } := rfl

theorem GetKlineRecords_row_1 (c : Collab) (x : F64) (rest : List JVal) (r : Kline) :
    GetKlineRecords_row c (.num x :: rest) 1 r
      = GetKlineRecords_row c rest 2 { r with Open := x } := rfl

theorem GetKlineRecords_row_2 (c : Collab) (x : F64) (rest : List JVal) (r : Kline) :
    GetKlineRecords_row c (.num x :: rest) 2 r
      = GetKlineRecords_row c rest 3 { r with High := x } := rfl

theorem GetKlineRecords_row_3 (c : Collab) (x : F64) (rest : List JVal) (r : Kline) :
    GetKlineRecords_row c (.num x :: rest) 3 r
      = GetKlineRecords_row c rest 4 { r with Low := x } := rfl

theorem GetKlineRecords_row_4 (c : Collab) (x : F64) (rest : List JVal) (r : Kline) :
    GetKlineRecords_row c (.num x :: rest) 4 r
      = GetKlineRecords_row c rest 5 { r with Close := x } := rfl

theorem GetKlineRecords_row_5 (c : Collab) (x : F64) (rest : List JVal) (r : Kline) :
    GetKlineRecords_row c (.num x :: rest) 5 r
      = GetKlineRecords_row c rest 6 { r with Vol := x } := rfl

theorem GetKlineRecords_row_input (c : Collab) (r : KlineInput) (hrange : inInt64 r.ts.trunc) :
    GetKlineRecords_row c r.toRow 0 Kline.zero = .ok r.toKline := by
  have hconv : c.toInt r.ts = r.ts.trunc := by simp [Collab.toInt, hrange]
  simp only [KlineInput.toRow, List.cons_append, List.nil_append]
  rw [GetKlineRecords_row_0, GetKlineRecords_row_1, GetKlineRecords_row_2, GetKlineRecords_row_3,
    GetKlineRecords_row_4, GetKlineRecords_row_5,
    GetKlineRecords_row_extra c r.extra 6 _ (by omega), hconv]
  rfl

theorem klineRows_inputs (rows : List KlineInput) :
    klineRows (rows.map (fun r => JVal.arr r.toRow)) = some (rows.map KlineInput.toRow) := by
  induction rows with
  | nil => rfl
  | cons r rs ih => simp only [List.map_cons, klineRows, klineRow, ih]

/-- C7: when the response decodes to rows whose first six entries are numbers, the first
of them with its integer part an `int64`, `GetKlineRecords` returns one kline per row, in
the order of the rows, with timestamp the integer part of entry 0 divided by 1000 (integer
division) and open, high, low, close, vol the entries 1 to 5; what follows entry 5 in a row
has no effect. -/
theorem GetKlineRecords_positional (c : Collab) (ctx : OKCoinCN_API) (currency : CurrencyPair)
    (period size since : Int) (body : Body) (rows : List KlineInput)
    (hget : c.httpGetBody (ctx.api_base_url
      ++ url_kline (c.ToLower (c.ToSymbol currency "_")) (c.klinePeriod period) size since)
      = .ok body)
    (hjson : body.json = .ok (.arr (rows.map (fun r => JVal.arr r.toRow))))
    (hrange : ∀ r ∈ rows, inInt64 r.ts.trunc) :
    GetKlineRecords c ctx currency period size since = .ok (rows.map KlineInput.toKline)
    ∧ (rows.map KlineInput.toKline).length = rows.length := by
  refine ⟨?_, List.length_map _ _⟩
  simp only [GetKlineRecords, hget, unmarshalKlines, hjson, klineRows_inputs,
    GetKlineRecords_normalize]
  exact mapRes_map_ok _ KlineInput.toRow KlineInput.toKline rows
    (fun r hr => GetKlineRecords_row_input c r (hrange r hr))

/-- The theorem `GetKlineRecords_positional` on the row
`[1609459200000, 100.0, 110.0, 90.0, 105.0, 1234.5]` followed by a row with a negative
timestamp and two trailing entries. -/
theorem GetKlineRecords_positional_witness :
    GetKlineRecords
        (sampleCollab (.arr [
          .arr [.num ⟨1609459200000, 0⟩, .num ⟨100, 0⟩, .num ⟨110, 0⟩, .num ⟨90, 0⟩,
            .num ⟨105, 0⟩, .num ⟨2469, -1⟩],
          .arr [.num ⟨-1500, 0⟩, .num ⟨1, 0⟩, .num ⟨2, 0⟩, .num ⟨3, 0⟩, .num ⟨4, 0⟩,
            .num ⟨5, 0⟩, .str "x", .null]]))
        sampleCtx btc_cny 1 10 0
      = .ok [
          { Timestamp := 1609459200, Open := ⟨100, 0⟩, High := ⟨110, 0⟩, Low := ⟨90, 0⟩,
            Close := ⟨105, 0⟩, Vol := ⟨2469, -1⟩ },
          { Timestamp := -1, Open := ⟨1, 0⟩, High := ⟨2, 0⟩, Low := ⟨3, 0⟩, Close := ⟨4, 0⟩,
            Vol := ⟨5, 0⟩ }] :=
  (GetKlineRecords_positional (sampleCollab _) sampleCtx btc_cny 1 10 0 (Body.ofJson _)
    [⟨⟨1609459200000, 0⟩, ⟨100, 0⟩, ⟨110, 0⟩, ⟨90, 0⟩, ⟨105, 0⟩, ⟨2469, -1⟩, []⟩,
      ⟨⟨-1500, 0⟩, ⟨1, 0⟩, ⟨2, 0⟩, ⟨3, 0⟩, ⟨4, 0⟩, ⟨5, 0⟩, [.str "x", .null]⟩]
    rfl rfl (by decide)).1

/-! ## C5: the signature -/

/-- Every entry `Values.Encode` writes comes from a binding of the map. -/
theorem Values.entries_lookup (v : Values) (k x : String) (h : (k, x) ∈ v.entries) :
    ∃ vs, v.lookup k = some vs ∧ x ∈ vs := by
  simp only [Values.entries, List.mem_flatMap, List.mem_map] at h
  obtain ⟨k1, _, x1, hx1, heq⟩ := h
  have hk : k1 = k := congrArg Prod.fst heq
  have hx : x1 = x := congrArg Prod.snd heq
  subst hk
  subst hx
  cases hl : v.lookup k1 with
  | none => rw [hl] at hx1; simp at hx1
  | some vs => rw [hl] at hx1; exact ⟨vs, rfl, by simpa using hx1⟩

/-- C5, as stated, fails: for the parameter set with the one key `sign` bound to `stale`,
key `KEY` and secret `SECRET`, the string handed to the digest (a digest that returns its
input shows it) is `api_key=KEY&sign=stale&secret_key=SECRET`, which has a `sign` entry. -/
theorem buildPostForm_hashes_stale_sign :
    (buildPostForm (echoDigest .null) sampleCtx [("sign", ["stale"])]).1.lookup "sign"
        = some ["api_key=KEY&sign=stale&secret_key=SECRET"]
    ∧ ("sign", "stale") ∈ (Values.Set [("sign", ["stale"])] "api_key" "KEY").entries := by
  constructor <;> decide

/-- C5, amended: when the digest of (the encoding of P with `api_key` set, followed by
`&secret_key=` and the secret) succeeds with `sign`, `buildPostForm` returns no error and
leaves P with `api_key` bound to the key and `sign` bound to the upper-cased digest; every
other key keeps what it was bound to and no other key is added (so no `secret_key` key
unless P had one); the entries of the hashed string are bindings of P or the `api_key`
binding, written in increasing key order, and it has a `sign` entry only if P had a `sign`
key. -/
theorem buildPostForm_signs (c : Collab) (ctx : OKCoinCN_API) (P : Values) (sign : String)
    (hdigest : c.GetParamMD5Sign ctx.secret_key
      (Values.Encode c.QueryEscape (P.Set "api_key" ctx.api_key) ++ "&secret_key="
        ++ ctx.secret_key) = .ok sign) :
    (buildPostForm c ctx P).2 = none
    ∧ (buildPostForm c ctx P).1.lookup "api_key" = some [ctx.api_key]
    ∧ (buildPostForm c ctx P).1.lookup "sign" = some [c.ToUpper sign]
    ∧ (∀ key : String, key ≠ "api_key" → key ≠ "sign" →
        (buildPostForm c ctx P).1.lookup key = P.lookup key)
    ∧ (P.lookup "secret_key" = none → (buildPostForm c ctx P).1.lookup "secret_key" = none)
    ∧ (∀ key x : String, (key, x) ∈ (P.Set "api_key" ctx.api_key).entries →
        (key = "api_key" ∧ x = ctx.api_key) ∨ (∃ vs, P.lookup key = some vs ∧ x ∈ vs))
    ∧ (P.lookup "sign" = none → ∀ x : String, ("sign", x) ∉ (P.Set "api_key" ctx.api_key).entries)
    ∧ (P.Set "api_key" ctx.api_key).entries.Pairwise
        (fun p q => ltChars q.1.data p.1.data = false) := by
  have hform : buildPostForm c ctx P
      = ((P.Set "api_key" ctx.api_key).Set "sign" (c.ToUpper sign), none) := by
    simp only [buildPostForm, hdigest]
  have hentries : ∀ key x : String, (key, x) ∈ (P.Set "api_key" ctx.api_key).entries →
      (key = "api_key" ∧ x = ctx.api_key) ∨ (∃ vs, P.lookup key = some vs ∧ x ∈ vs) := by
    intro key x hmem
    obtain ⟨vs, hvs, hx⟩ := Values.entries_lookup _ key x hmem
    by_cases hk : key = "api_key"
    · left
      subst hk
      rw [Values.lookup_Set_same] at hvs
      have : vs = [ctx.api_key] := by simpa using hvs.symm
      subst this
      exact ⟨rfl, by simpa using hx⟩
    · right
      rw [Values.lookup_Set_other _ _ _ _ hk] at hvs
      exact ⟨vs, hvs, hx⟩
  refine ⟨?_, ?_, ?_, ?_, ?_, hentries, ?_, Values.entries_sorted _⟩
  · rw [hform]
  · rw [hform]
    simp only []
    rw [Values.lookup_Set_other _ _ _ _ (by decide), Values.lookup_Set_same]
  · rw [hform]
    exact Values.lookup_Set_same _ _ _
  · intro key h1 h2
    exact buildPostForm_lookup_other c ctx P key h1 h2
  · intro hnone
    rw [buildPostForm_lookup_other c ctx P "secret_key" (by decide) (by decide)]
    exact hnone
  · intro hnone x hmem
    rcases hentries "sign" x hmem with ⟨h, _⟩ | ⟨vs, hvs, _⟩
    · exact absurd h (by decide)
    · rw [hnone] at hvs
      exact absurd hvs (by simp)

/-- The theorem `buildPostForm_signs` on the form of a cancel request, with a digest that
answers `5d41`. -/
theorem buildPostForm_signs_witness :
    (buildPostForm (sampleCollab .null) sampleCtx [("order_id", ["42"])]).2 = none
    ∧ (buildPostForm (sampleCollab .null) sampleCtx [("order_id", ["42"])]).1.lookup "api_key"
        = some ["KEY"]
    ∧ (buildPostForm (sampleCollab .null) sampleCtx [("order_id", ["42"])]).1.lookup "sign"
        = some ["5d41"]
    ∧ (buildPostForm (sampleCollab .null) sampleCtx [("order_id", ["42"])]).1.lookup "order_id"
        = some ["42"] :=
  have h := buildPostForm_signs (sampleCollab .null) sampleCtx [("order_id", ["42"])] "5d41" rfl
  ⟨h.1, h.2.1, h.2.2.1, h.2.2.2.1 "order_id" (by decide) (by decide)⟩

/-! ## C8: malformed frames in the read loops -/

/-- C8 on the depth and trade streams.  A frame that is not JSON and a frame whose `data`
has the wrong shape are skipped and the next frame is delivered; but a frame holding an
empty top-level array, an ask row with one entry, a trade tuple with four entries, or a
time string without colons makes the read loop panic, and the valid frame that follows is
never delivered. -/
theorem read_loops_crash_on_malformed_frames :
    -- skipped: undecodable JSON, then `data` of the wrong shape; the valid frame arrives
    GetDepthChan_loop (sampleCollab .null)
        [.frame (.error "invalid character"),
          .frame (.ok (.arr [.obj [("data", .str "pong")]])),
          .frame (.ok (.arr [.obj [("data", .obj [("asks", depthRows [(⟨3, 0⟩, ⟨1, 0⟩)])])]]))]
      = ([{ AskList := [⟨⟨3, 0⟩, ⟨1, 0⟩⟩], BidList := [] }], .waiting)
    -- an empty top-level array
    ∧ GetDepthChan_loop (sampleCollab .null)
        [.frame (.ok (.arr [])),
          .frame (.ok (.arr [.obj [("data", .obj [("asks", depthRows [(⟨3, 0⟩, ⟨1, 0⟩)])])]]))]
      = ([], .crashed "index out of range")
    -- an ask row with one entry
    ∧ GetDepthChan_loop (sampleCollab .null)
        [.frame (.ok (.arr [.obj [("data", .obj [("asks", .arr [.arr [.num ⟨3, 0⟩]])])]])),
          .frame (.ok (.arr [.obj [("data", .obj [("asks", depthRows [(⟨3, 0⟩, ⟨1, 0⟩)])])]]))]
      = ([], .crashed "index out of range")
    -- an empty top-level array on the trade stream
    ∧ GetTradeChan_loop (sampleCollab .null) (fun _ _ => ⟨2024, 3, 10, 12⟩)
        [.frame (.ok (.arr [])),
          .frame (.ok (.arr [.obj [("data", .arr [.arr [.num ⟨7, 0⟩, .num ⟨2, 0⟩, .num ⟨3, 0⟩,
            .str "11:59:58", .str "buy"]])]]))] 0
      = ([], .crashed "index out of range")
    -- a trade tuple with four entries
    ∧ GetTradeChan_loop (sampleCollab .null) (fun _ _ => ⟨2024, 3, 10, 12⟩)
        [.frame (.ok (.arr [.obj [("data", .arr [.arr [.num ⟨7, 0⟩, .num ⟨2, 0⟩, .num ⟨3, 0⟩,
            .str "11:59:58"]])]])),
          .frame (.ok (.arr [.obj [("data", .arr [.arr [.num ⟨7, 0⟩, .num ⟨2, 0⟩, .num ⟨3, 0⟩,
            .str "11:59:58", .str "buy"]])]]))] 0
      = ([], .crashed "index out of range")
    -- a time string that is not h:m:s
    ∧ GetTradeChan_loop (sampleCollab .null) (fun _ _ => ⟨2024, 3, 10, 12⟩)
        [.frame (.ok (.arr [.obj [("data", .arr [.arr [.num ⟨7, 0⟩, .num ⟨2, 0⟩, .num ⟨3, 0⟩,
            .str "noon", .str "buy"]])]])),
          .frame (.ok (.arr [.obj [("data", .arr [.arr [.num ⟨7, 0⟩, .num ⟨2, 0⟩, .num ⟨3, 0⟩,
            .str "11:59:58", .str "buy"]])]]))] 0
      = ([], .crashed "index out of range")
    -- the valid trade frame alone is delivered
    ∧ GetTradeChan_loop (sampleCollab .null) (fun _ _ => ⟨2024, 3, 10, 12⟩)
        [.frame (.ok (.arr [.obj [("data", .arr [.arr [.num ⟨7, 0⟩, .num ⟨2, 0⟩, .num ⟨3, 0⟩,
            .str "11:59:58", .str "buy"]])]]))] 0
      = ([[{ Tid := 7, Price := ⟨2, 0⟩, Amount := ⟨3, 0⟩, Date := 1710071998000,
             Type_ := "buy" }]], .waiting) := by
  refine ⟨?_, ?_, ?_, ?_, ?_, ?_, ?_⟩ <;> decide

/-! ## C11: a place-order response without a numeric `order_id` -/

theorem JVal.asFloat_of_float?_none (v : JVal) (h : v.float? = none) :
    v.asFloat = .panic "interface conversion: interface is not float64" := by
  cases v <;> first | rfl | simp [JVal.float?] at h

/-- Whenever the response has no numeric `error_code` and `order_id` is missing or not a
number, the normalization of `placeOrder` panics: no error is returned and no `Order`. -/
theorem placeOrder_normalize_panics (c : Collab) (side amount price : String)
    (currency : CurrencyPair) (respMap : JMap)
    (herr : (respMap.index "error_code").float? = none)
    (hid : (respMap.index "order_id").float? = none) :
    placeOrder_normalize c side amount price currency respMap
      = .panic "interface conversion: interface is not float64" := by
  simp only [placeOrder_normalize, herr, JVal.asFloat_of_float?_none _ hid, Res.bind_panic]

/-- With a numeric `order_id` and no numeric `error_code` the order carries the converted
identifier. -/
theorem placeOrder_normalize_id (c : Collab) (side amount price : String)
    (currency : CurrencyPair) (respMap : JMap) (id : F64)
    (herr : (respMap.index "error_code").float? = none)
    (hid : respMap.index "order_id" = .num id) :
    ∃ o, placeOrder_normalize c side amount price currency respMap = .ok o
      ∧ o.OrderID = c.toInt id := by
  simp only [placeOrder_normalize, herr, hid, JVal.asFloat, Res.bind_ok]
  refine ⟨_, rfl, ?_⟩
  split_ifs <;> rfl

/-- C11 at a response without `order_id` and at one whose `order_id` is a string: for
every side, amount, price and pair the normalization of `placeOrder` panics on the failed
assertion `respMap["order_id"].(float64)` instead of returning an error; run through
`placeOrder`, the request has been posted and the call ends in the panic. -/
theorem placeOrder_panics_without_order_id (c : Collab) (side amount price id : String)
    (currency : CurrencyPair) :
    placeOrder_normalize c side amount price currency [("result", .bool true)]
      = .panic "interface conversion: interface is not float64"
    ∧ placeOrder_normalize c side amount price currency
        [("result", .bool true), ("order_id", .str id)]
      = .panic "interface conversion: interface is not float64"
    ∧ (placeOrder (sampleCollab (.obj [("result", .bool true)])) sampleCtx "buy" "100" "1"
        btc_cny).res = .panic "interface conversion: interface is not float64"
    ∧ (placeOrder (sampleCollab (.obj [("result", .bool true)])) sampleCtx "buy" "100" "1"
        btc_cny).posts.map Prod.fst = ["https://www.okex.com/api/v1/trade.do"] := by
  refine ⟨?_, ?_, ?_, ?_⟩
  · exact placeOrder_normalize_panics c side amount price currency _ rfl rfl
  · exact placeOrder_normalize_panics c side amount price currency _ rfl rfl
  · decide
  · decide

end OKCoin
